import Mathlib

/-!
Verification of the StreamWeaver event-streaming core against its
natural-language specification.

The definitions below are a shallow embedding of the Python sources under
`src/streamweaver/core/`:

* `events.py`      → `EventVisibility`, `StreamEventType`, `StreamEvent`,
                     `StreamEvent.to_sse_format`, `StreamEvent.to_dict`,
                     `StreamEvent.from_dict`
* `filters.py`     → `EventFilter`, `EventFilter.shouldInclude`
* `backpressure.py`→ `BackpressurePolicy`, `BackpressureQueue`,
                     `BackpressureQueue.put`
* `replay.py`      → `EventBuffer`, `EventBuffer.add`,
                     `EventBuffer.get_events_after`
* `batching.py`    → `BatchConfig`, `EventBatcher`, `EventBatcher.add`
* `generator.py`   → `streamDrain` (the subscriber loop of
                     `StreamGenerator.generate_stream`), `heartbeatTick`
                     (one iteration of `_heartbeat_generator`),
                     `finallyCleanup` (the `finally` block of
                     `generate_stream`), `publish_event`
* `session.py`     → `SessionData`, `update_session` of
                     `InMemorySessionStore`

Modelling conventions: Python floats that are only carried around (never
computed with) are modelled as `Rat`; free-form JSON payloads are a small
`Json` inductive whose rendering elides string escaping (no claim depends
on escaping); asynchronous waiting, timeouts and task scheduling are
modelled by sequential state passing, one observable step at a time.
-/

/-- Free-form JSON values carried in event `data` / `metadata` fields and
rendered by `json.dumps` in the wire formats. -/
inductive Json where
  | null : Json
  | bool (b : Bool) : Json
  | num (q : Rat) : Json
  | str (s : String) : Json
  | arr (xs : List Json) : Json
  | obj (fields : List (String × Json)) : Json

mutual

/-- Rendering of a JSON value, mirroring `json.dumps` with its default
separators `", "` and `": "` (string escaping elided). -/
def Json.render : Json → String
  | .null => "null"
  | .bool b => cond b "true" "false"
  | .num q => toString q
  | .str s => "\"" ++ s ++ "\""
  | .arr xs => "[" ++ Json.renderArr xs ++ "]"
  | .obj fs => "\x7b" ++ Json.renderObj fs ++ "\x7d"

def Json.renderArr : List Json → String
  | [] => ""
  | [x] => Json.render x
  | x :: y :: xs => Json.render x ++ ", " ++ Json.renderArr (y :: xs)

def Json.renderObj : List (String × Json) → String
  | [] => ""
  | [(k, v)] => "\"" ++ k ++ "\": " ++ Json.render v
  | (k, v) :: f :: fs =>
      "\"" ++ k ++ "\": " ++ Json.render v ++ ", " ++ Json.renderObj (f :: fs)

end

/-- Embedding of `EventVisibility` enumeration from `events.py`. -/
inductive EventVisibility where
  | user_facing
  | model_only
  | live_ui_only
  | internal_only
deriving DecidableEq

/-- The string value of each `EventVisibility` member. -/
def EventVisibility.value : EventVisibility → String
  | .user_facing => "user_facing"
  | .model_only => "model_only"
  | .live_ui_only => "live_ui_only"
  | .internal_only => "internal_only"

/-- Embedding of `EventVisibility(s)` construction from a string: `some` member on a
known value, `none` where Python raises `ValueError`. -/
def EventVisibility.ofValue? (s : String) : Option EventVisibility :=
  if s = "user_facing" then some .user_facing
  else if s = "model_only" then some .model_only
  else if s = "live_ui_only" then some .live_ui_only
  else if s = "internal_only" then some .internal_only
  else none

/-- Embedding of `StreamEventType` enumeration from `events.py`. -/
inductive StreamEventType where
  | workflow_started
  | workflow_completed
  | step_started
  | step_progress
  | step_completed
  | step_failed
  | tool_executed
  | tool_completed
  | error
  | heartbeat
  | agent_message
  | token_chunk
  | workflow_interruption
  | reasoning_chunk
  | user_decision
deriving DecidableEq

/-- The string value of each `StreamEventType` member. -/
def StreamEventType.value : StreamEventType → String
  | .workflow_started => "workflow_started"
  | .workflow_completed => "workflow_completed"
  | .step_started => "step_started"
  | .step_progress => "step_progress"
  | .step_completed => "step_completed"
  | .step_failed => "step_failed"
  | .tool_executed => "tool_executed"
  | .tool_completed => "tool_completed"
  | .error => "error"
  | .heartbeat => "heartbeat"
  | .agent_message => "agent_message"
  | .token_chunk => "token_chunk"
  | .workflow_interruption => "workflow_interruption"
  | .reasoning_chunk => "reasoning_chunk"
  | .user_decision => "user_decision"

/-- Embedding of `StreamEventType(s)` construction from a string: `some` member on a
known value, `none` where Python raises `ValueError`. -/
def StreamEventType.ofValue? (s : String) : Option StreamEventType :=
  if s = "workflow_started" then some .workflow_started
  else if s = "workflow_completed" then some .workflow_completed
  else if s = "step_started" then some .step_started
  else if s = "step_progress" then some .step_progress
  else if s = "step_completed" then some .step_completed
  else if s = "step_failed" then some .step_failed
  else if s = "tool_executed" then some .tool_executed
  else if s = "tool_completed" then some .tool_completed
  else if s = "error" then some .error
  else if s = "heartbeat" then some .heartbeat
  else if s = "agent_message" then some .agent_message
  else if s = "token_chunk" then some .token_chunk
  else if s = "workflow_interruption" then some .workflow_interruption
  else if s = "reasoning_chunk" then some .reasoning_chunk
  else if s = "user_decision" then some .user_decision
  else none

/-- The `Union[StreamEventType, str]` type of the `event_type` field:
either an enumeration member or an opaque string. -/
inductive EventTypeField where
  | known (t : StreamEventType)
  | raw (s : String)
deriving DecidableEq

/-- The wire value of the `event_type` field
(`self.event_type.value if isinstance(...) else self.event_type`). -/
def EventTypeField.value : EventTypeField → String
  | .known t => t.value
  | .raw s => s

/-- Embedding of `StreamEvent` dataclass from `events.py`.  `timestamp` (a Python
float of seconds, never computed with here) is modelled as `Rat`;
`data` and `metadata` (free-form `dict[str, Any]`) as ordered JSON
object entries. -/
structure StreamEvent where
  event_type : EventTypeField
  session_id : String
  timestamp : Rat
  event_id : String
  step_number : Option Int := none
  message : String := ""
  data : Option (List (String × Json)) := none
  progress_percent : Option Rat := none
  tool_used : Option String := none
  duration_ms : Option Int := none
  success : Bool := true
  metadata : Option (List (String × Json)) := none
  visibility : EventVisibility := .user_facing

/-- The ordered entries of the `event_data` dict built by
`StreamEvent.to_sse_format` before its `None`-filtering comprehension:
each value is `some` JSON value or `none` for Python `None`. -/
def StreamEvent.sseEntries (e : StreamEvent) : List (String × Option Json) :=
  [("type", some (.str e.event_type.value)),
   ("eventId", some (.str e.event_id)),
   ("sessionId", some (.str e.session_id)),
   ("timestamp", some (.num e.timestamp)),
   ("step", e.step_number.map (fun n => .num (n : Rat))),
   ("message", some (.str e.message)),
   ("data", e.data.map .obj),
   ("progress", e.progress_percent.map .num),
   ("tool", e.tool_used.map .str),
   ("duration", e.duration_ms.map (fun n => .num (n : Rat))),
   ("success", some (.bool e.success)),
   ("visibility", some (.str e.visibility.value))]
  ++ (match e.metadata with  -- `if self.metadata:` - truthy, so non-empty
      | some m => if m.isEmpty then [] else [("metadata", some (.obj m))]
      | none => [])

/-- Embedding of `StreamEvent.to_sse_format`: the SSE wire form
`id: <event_id>\nevent: message\ndata: <json>\n\n`, where the JSON body
drops entries whose value is `None`. -/
def StreamEvent.to_sse_format (e : StreamEvent) : String :=
  let event_data : List (String × Json) :=
    e.sseEntries.filterMap (fun kv => kv.2.map (fun v => (kv.1, v)))
  "id: " ++ e.event_id ++ "\nevent: message\ndata: "
    ++ (Json.obj event_data).render ++ "\n\n"

/-- The dictionary produced by `StreamEvent.to_dict`, modelled as a typed
record: a field holds `none` exactly when the corresponding key is absent
from the Python dict.  The keys `type`, `eventId`, `sessionId`,
`timestamp`, `message`, `success` and `visibility` are always present. -/
structure EventDict where
  type : Option String := none
  eventId : Option String := none
  sessionId : Option String := none
  timestamp : Option Rat := none
  message : Option String := none
  success : Option Bool := none
  visibility : Option String := none
  step : Option Int := none
  data : Option (List (String × Json)) := none
  progress : Option Rat := none
  tool : Option String := none
  duration : Option Int := none
  metadata : Option (List (String × Json)) := none

/-- Embedding of `StreamEvent.to_dict`: unconditional keys first, then each optional
key added exactly when the field `is not None`. -/
def StreamEvent.to_dict (e : StreamEvent) : EventDict :=
  { type := some e.event_type.value,
    eventId := some e.event_id,
    sessionId := some e.session_id,
    timestamp := some e.timestamp,
    message := some e.message,
    success := some e.success,
    visibility := some e.visibility.value,
    step := e.step_number,
    data := e.data,
    progress := e.progress_percent,
    tool := e.tool_used,
    duration := e.duration_ms,
    metadata := e.metadata }

/-- Embedding of `StreamEvent.from_dict`: permissive deserialization.  `fresh` stands
for the `generate_event_id()` drawn when the dict carries no `eventId`
(a uuid4, modelled as a parameter). -/
def StreamEvent.from_dict (d : EventDict) (fresh : String) : StreamEvent :=
  let ts := d.type.getD ""
  let event_type : EventTypeField :=
    match StreamEventType.ofValue? ts with
    | some t => .known t        -- contextlib.suppress(ValueError) succeeded
    | none => .raw ts           -- unknown type string preserved verbatim
  let vis : EventVisibility :=
    match EventVisibility.ofValue? (d.visibility.getD "user_facing") with
    | some v => v
    | none => .user_facing      -- except ValueError: coerced to USER_FACING
  { event_type := event_type,
    event_id := d.eventId.getD fresh,
    session_id := d.sessionId.getD "",
    timestamp := d.timestamp.getD 0,
    step_number := d.step,
    message := d.message.getD "",
    data := d.data,
    progress_percent := d.progress,
    tool_used := d.tool,
    duration_ms := d.duration,
    success := d.success.getD true,
    metadata := d.metadata,
    visibility := vis }

/-- The ordered JSON entries of a `to_dict` dictionary (`json.dumps`
view): the unconditional keys in construction order, then each optional
key exactly when present. -/
def EventDict.toEntries (d : EventDict) : List (String × Json) :=
  [("type", Json.str (d.type.getD "")),
   ("eventId", Json.str (d.eventId.getD "")),
   ("sessionId", Json.str (d.sessionId.getD "")),
   ("timestamp", Json.num (d.timestamp.getD 0)),
   ("message", Json.str (d.message.getD "")),
   ("success", Json.bool (d.success.getD true)),
   ("visibility", Json.str (d.visibility.getD ""))]
  ++ (d.step.elim [] (fun n => [("step", Json.num (n : Rat))]))
  ++ (d.data.elim [] (fun m => [("data", Json.obj m)]))
  ++ (d.progress.elim [] (fun q => [("progress", Json.num q)]))
  ++ (d.tool.elim [] (fun s => [("tool", Json.str s)]))
  ++ (d.duration.elim [] (fun n => [("duration", Json.num (n : Rat))]))
  ++ (d.metadata.elim [] (fun m => [("metadata", Json.obj m)]))

/-- Filter tree from `filters.py`: one constructor per `EventFilter`
subclass.  Python `set`s of visibilities / type values / session ids are
modelled as lists (only membership is consumed); `TypeFilter` stores the
string values after its constructor's enum-to-value normalization;
`CompositeFilter` stores its already-lowercased, validated operator
string. -/
inductive EventFilter where
  | visibilityFilter (visibilities : List EventVisibility)
  | typeFilter (event_types : List String) (inc : Bool)
  | compositeFilter (filters : List EventFilter) (op : String)
  | notFilter (inner_filter : EventFilter)
  | callableFilter (predicate : StreamEvent → Bool)
  | sessionFilter (session_ids : List String) (inc : Bool)

mutual

/-- Embedding of `should_include` of each filter class.  `all(...)` / `any(...)` over
the children of a `CompositeFilter` are unfolded into the structural
helpers below (same short-circuit decisions). -/
def EventFilter.shouldInclude : EventFilter → StreamEvent → Bool
  | .visibilityFilter vs, e => decide (e.visibility ∈ vs)
  | .typeFilter ts inc, e =>
      let m := decide (e.event_type.value ∈ ts)
      if inc then m else !m
  | .compositeFilter fs op, e =>
      if op = "and" then EventFilter.allInclude fs e
      else EventFilter.anyInclude fs e
  | .notFilter f, e => !(EventFilter.shouldInclude f e)
  | .callableFilter p, e => p e
  | .sessionFilter ids inc, e =>
      let m := decide (e.session_id ∈ ids)
      if inc then m else !m

/-- Embedding of `all(f.should_include(event) for f in self.filters)`. -/
def EventFilter.allInclude : List EventFilter → StreamEvent → Bool
  | [], _ => true
  | f :: fs, e => EventFilter.shouldInclude f e && EventFilter.allInclude fs e

/-- Embedding of `any(f.should_include(event) for f in self.filters)`. -/
def EventFilter.anyInclude : List EventFilter → StreamEvent → Bool
  | [], _ => false
  | f :: fs, e => EventFilter.shouldInclude f e || EventFilter.anyInclude fs e

end

/-- Embedding of `BackpressurePolicy` enumeration from `backpressure.py`. -/
inductive BackpressurePolicy where
  | block
  | drop_oldest
  | drop_newest
deriving DecidableEq

/-- Embedding of `BackpressureQueue` state from `backpressure.py`.  `_items` is the
observable FIFO content (`qsize()` is its length); the internal unbounded
`asyncio.Queue` mirrors `_items` and is not modelled separately.
`maxsize` is a Python int (`maxsize <= 0` means unlimited).  `qid`
models Python object identity (the `is` check in `generate_stream`'s
`finally` block); it is no part of the queue's own behaviour. -/
structure BackpressureQueue (α : Type) where
  qid : Nat := 0
  maxsize : Int
  policy : BackpressurePolicy
  items : List α := []
  dropped_count : Nat := 0

/-- Embedding of `qsize()`. -/
def BackpressureQueue.qsize (q : BackpressureQueue α) : Nat :=
  q.items.length

/-- Embedding of `full()`. -/
def BackpressureQueue.full (q : BackpressureQueue α) : Bool :=
  if q.maxsize ≤ 0 then false else decide ((q.items.length : Int) ≥ q.maxsize)

/-- Embedding of `BackpressureQueue.put`: returns (`accepted`, new state).  Under
BLOCK on a full queue the code falls through the lock and appends to the
internal queue, which is unbounded (`asyncio.Queue(maxsize=0)`), so the
"blocking" branch completes immediately with the item appended. -/
def BackpressureQueue.put (q : BackpressureQueue α) (item : α) :
    Bool × BackpressureQueue α :=
  if q.maxsize ≤ 0 then
    -- Unlimited queue
    (true, { q with items := q.items ++ [item] })
  else if (q.items.length : Int) < q.maxsize then
    -- Queue has space
    (true, { q with items := q.items ++ [item] })
  else
    -- Queue is full, apply policy
    match q.policy with
    | .block =>
        -- BLOCK policy: falls through and appends (internal queue unbounded)
        (true, { q with items := q.items ++ [item] })
    | .drop_oldest =>
        let (items', dropped') :=
          if q.items.isEmpty then (q.items, q.dropped_count)
          else (q.items.tail, q.dropped_count + 1)
        (true, { q with items := items' ++ [item], dropped_count := dropped' })
    | .drop_newest =>
        (false, { q with dropped_count := q.dropped_count + 1 })

/-- Embedding of `BackpressureQueue.get` in the sequential (already-available) case:
the head of the FIFO is returned and removed; `none` models the empty
queue, where the real `get` suspends until the timeout. -/
def BackpressureQueue.getItem (q : BackpressureQueue α) :
    Option (α × BackpressureQueue α) :=
  match q.items with
  | [] => none
  | x :: xs => some (x, { q with items := xs })

/-- Lookup in the `_event_index` dict (`event_id -> position`), modelled
as an insertion-ordered association list, the way a Python dict preserves
insertion order. -/
def posLookup : List (String × Nat) → String → Option Nat
  | [], _ => none
  | (k, v) :: rest, id => if k = id then some v else posLookup rest id

/-- Embedding of `dict.pop(key, None)`: remove the entry of `key` (keys are unique in
a dict, so at most one entry matches). -/
def posErase : List (String × Nat) → String → List (String × Nat)
  | [], _ => []
  | (k, v) :: rest, id => if k = id then rest else (k, v) :: posErase rest id

/-- Embedding of `dict[key] = value`: overwrite in place when present, else append. -/
def posSet : List (String × Nat) → String → Nat → List (String × Nat)
  | [], id, v => [(id, v)]
  | (k, w) :: rest, id, v =>
      if k = id then (k, v) :: rest else (k, w) :: posSet rest id v

/-- Embedding of `EventBuffer` from `replay.py`: a `deque(maxlen=max_size)` of events,
the `event_id -> position` index, and the never-reset position counter. -/
structure EventBuffer where
  max_size : Nat := 100
  buffer : List StreamEvent := []
  event_index : List (String × Nat) := []
  position_counter : Nat := 0

/-- Embedding of `EventBuffer.add`: on a full buffer the oldest event's index entry is
popped first; the `deque(maxlen=...)` append then evicts the oldest
element itself when the length would exceed `max_size`. -/
def EventBuffer.add (b : EventBuffer) (e : StreamEvent) : EventBuffer :=
  let idx :=
    if b.buffer.length ≥ b.max_size ∧ ¬b.buffer.isEmpty then
      match b.buffer with
      | oldest :: _ => posErase b.event_index oldest.event_id
      | [] => b.event_index
    else b.event_index
  let appended := b.buffer ++ [e]
  let buf := if appended.length > b.max_size then appended.tail else appended
  { b with
    buffer := buf,
    event_index := posSet idx e.event_id b.position_counter,
    position_counter := b.position_counter + 1 }

/-- Embedding of `EventBuffer.get_events_after`: empty when the id is not indexed;
otherwise every buffered event whose indexed position strictly exceeds
the target position, in buffer order. -/
def EventBuffer.get_events_after (b : EventBuffer) (last_event_id : String) :
    List StreamEvent :=
  match posLookup b.event_index last_event_id with
  | none => []
  | some target =>
      b.buffer.filter (fun e =>
        match posLookup b.event_index e.event_id with
        | some p => decide (p > target)
        | none => false)

/-- Embedding of `EventBuffer.clear`: empties buffer and index, keeps the counter. -/
def EventBuffer.clear (b : EventBuffer) : EventBuffer :=
  { b with buffer := [], event_index := [] }

/-- The buffer obtained by `add`ing the events of `es` in order into a
fresh `EventBuffer(max_size=cap)`. -/
def buildBuffer (cap : Nat) (es : List StreamEvent) : EventBuffer :=
  es.foldl EventBuffer.add { max_size := cap }

/-- Embedding of `BatchConfig` from `batching.py`. -/
structure BatchConfig where
  enabled : Bool := false
  max_batch_size : Nat := 10
  max_batch_delay_ms : Nat := 50
  immediate_types : List String :=
    ["workflow_completed", "error", "workflow_interruption"]

/-- Embedding of `EventBatcher` state: the pending batch and the closed flag.  The
delay timer (`_batch_start_time`, `_flush_task`) only matters for the
time-triggered flush and is modelled by `batch_start_time`; real-time
firing is outside this embedding. -/
structure EventBatcher where
  session_id : String
  config : BatchConfig := {}
  batch : List StreamEvent := []
  batch_start_time : Option Rat := none
  closed : Bool := false

/-- Embedding of `EventBatcher._format_batch`: one event uses its single-event wire
form; several events use the `event: batch` frame keyed by the last
event's id, with `data` the JSON array of the events' `to_dict` forms. -/
def EventBatcher.formatBatch (events : List StreamEvent) : String :=
  match events with
  | [e] => e.to_sse_format
  | _ =>
    let batch_data : List Json :=
      events.map (fun e =>
        Json.obj ((e.to_dict).toEntries))
    let last_id := (events.getLast?).elim "" (fun e => e.event_id)
    "id: " ++ last_id ++ "\nevent: batch\ndata: "
      ++ (Json.arr batch_data).render ++ "\n\n"

/-- Embedding of `EventBatcher._flush_and_format`: `""` on an empty batch, otherwise
the formatted batch with batch state reset. -/
def EventBatcher.flushAndFormat (b : EventBatcher) : String × EventBatcher :=
  if b.batch.isEmpty then ("", b)
  else (EventBatcher.formatBatch b.batch,
        { b with batch := [], batch_start_time := none })

/-- Embedding of `EventBatcher.add`: returns the optional wire payload and the new
state.  `now` models `time.time()` at the call. -/
def EventBatcher.add (b : EventBatcher) (e : StreamEvent) (now : Rat) :
    Option String × EventBatcher :=
  if b.closed then (none, b)
  else if ¬b.config.enabled then
    -- Batching disabled - return event immediately
    (some e.to_sse_format, b)
  else if e.event_type.value ∈ b.config.immediate_types then
    -- Flush current batch first, then return this event
    let (flushed, b') := b.flushAndFormat
    (some (flushed ++ e.to_sse_format), b')
  else
    let started := b.batch_start_time.getD now
    let b' := { b with batch := b.batch ++ [e], batch_start_time := some started }
    if b'.batch.length ≥ b.config.max_batch_size then
      let (flushed, b'') := b'.flushAndFormat
      (some flushed, b'')
    else
      (none, b')

/-- Embedding of `SessionData` from `session.py` (fields consumed by the claims). -/
structure SessionData where
  session_id : String
  user_request : String := ""
  created_at : Rat := 0
  last_activity : Rat := 0
  status : String := "active"
  current_step : Option String := none

/-- Embedding of `InMemorySessionStore.update_session` restricted to the keyword
arguments `publish_event` passes (`last_activity`, `current_step`):
`False` and no change for an unknown session; otherwise set the fields,
then overwrite `last_activity` with `time.time()` (`now`). -/
def update_session (sessions : String → Option SessionData) (session_id : String)
    (last_activity : Rat) (current_step : String) (now : Rat) :
    Bool × (String → Option SessionData) :=
  match sessions session_id with
  | none => (false, sessions)
  | some s =>
      let s' := { s with last_activity := last_activity,
                         current_step := some current_step }
      let s'' := { s' with last_activity := now }
      (true, fun sid => if sid = session_id then some s'' else sessions sid)

/-- Embedding of `StreamGenerator` state consumed by `publish_event` and the
`generate_stream` scope exit: configuration, the session-id → queue map,
the session-id → subscriber-task map (presence only), the per-session
replay buffers of `SessionEventBuffers`, and the session store's
contents.  Registered callbacks are not modelled: their results are
discarded and their exceptions swallowed, so they touch neither the
state below nor any return value. -/
structure StreamGenerator where
  queue_size : Nat := 1000
  backpressure_policy : BackpressurePolicy := .drop_oldest
  event_buffer_size : Nat := 100
  active_streams : String → Option (BackpressureQueue StreamEvent)
  active_stream_tasks : String → Bool
  event_buffers : String → Option EventBuffer
  sessions : String → Option SessionData

/-- Embedding of `SessionEventBuffers.get_or_create_buffer`. -/
def StreamGenerator.getOrCreateBuffer (g : StreamGenerator) (session_id : String) :
    EventBuffer :=
  (g.event_buffers session_id).getD { max_size := g.event_buffer_size }

/-- Embedding of `StreamGenerator.publish_event`: add to the session's replay buffer,
lazily create the queue, enqueue with backpressure, and on success update
the session metadata, discarding `update_session`'s boolean.  Returns
(`accepted`, new state); `now` models `time.time()` inside
`update_session`. -/
def StreamGenerator.publish_event (g : StreamGenerator) (session_id : String)
    (e : StreamEvent) (now : Rat) (fresh_qid : Nat) : Bool × StreamGenerator :=
  -- Store in replay buffer
  let buf := (g.getOrCreateBuffer session_id).add e
  let buffers' := fun sid =>
    if sid = session_id then some buf else g.event_buffers sid
  -- Ensure queue exists (`fresh_qid` is the identity of a newly
  -- constructed queue when none is installed)
  let queue := (g.active_streams session_id).getD
    { qid := fresh_qid, maxsize := (g.queue_size : Int),
      policy := g.backpressure_policy }
  let (accepted, queue') := queue.put e
  let streams' := fun sid =>
    if sid = session_id then some queue' else g.active_streams sid
  let sessions' :=
    if accepted then
      (update_session g.sessions session_id e.timestamp e.message now).2
    else g.sessions
  (accepted, { g with active_streams := streams',
                      event_buffers := buffers',
                      sessions := sessions' })

/-- Whether an optional filter accepts an event
(`if event_filter and not event_filter.should_include(event): continue`). -/
def acceptsEvent (filt : Option EventFilter) (e : StreamEvent) : Bool :=
  match filt with
  | none => true
  | some f => f.shouldInclude e

/-- The live drain loop of `StreamGenerator.generate_stream`, run over
the sequence of events dequeued from the session queue: a rejected event
is skipped; an accepted `workflow_completed` enum event is emitted and
the loop exits; any other accepted event is emitted and the loop goes
on.  Returns the emitted wire payloads and whether the loop exited via
`workflow_completed` (timeouts and queue errors, which `continue` the
loop, are not part of the dequeued sequence). -/
def streamDrain (filt : Option EventFilter) : List StreamEvent → List String × Bool
  | [] => ([], false)
  | e :: rest =>
      if ¬acceptsEvent filt e then streamDrain filt rest
      else if e.event_type = .known .workflow_completed then
        ([e.to_sse_format], true)
      else
        let (out, terminated) := streamDrain filt rest
        (e.to_sse_format :: out, terminated)

/-- The heartbeat event built by `_heartbeat_generator` for sequence
number `n`: type `HEARTBEAT`, visibility `INTERNAL_ONLY`, message
"Heartbeat", `data={"sequence": n}`.  `eid` models the
`generate_event_id()` default and `now` the loop clock. -/
def heartbeatEvent (session_id : String) (eid : String) (n : Nat) (now : Rat) :
    StreamEvent :=
  { event_type := .known .heartbeat,
    session_id := session_id,
    timestamp := now,
    event_id := eid,
    message := "Heartbeat",
    data := some [("sequence", Json.num (n : Rat))],
    visibility := .internal_only }

/-- One iteration of `StreamGenerator._heartbeat_generator` after the
sleep: skip entirely when the queue holds more than 5 pending elements,
otherwise bump the sequence number and enqueue the heartbeat (the `put`
result is discarded).  Returns the new queue and sequence number. -/
def heartbeatTick (session_id : String) (eid : String)
    (event_queue : BackpressureQueue StreamEvent) (heartbeat_sequence : Nat)
    (now : Rat) : BackpressureQueue StreamEvent × Nat :=
  if event_queue.qsize > 5 then
    -- Skip heartbeat if queue is backing up
    (event_queue, heartbeat_sequence)
  else
    let n := heartbeat_sequence + 1
    ((event_queue.put (heartbeatEvent session_id eid n now)).2, n)

/-- The `finally` block of `StreamGenerator.generate_stream`: cancel the
heartbeat task when it exists and is not done, drop the session's queue
entry only when it is still this subscriber's `event_queue` (the `is`
identity check is modelled by comparing `qid` identity tokens), drop
the subscriber-task entry, and touch nothing
else — in particular the replay buffers.  Returns whether a cancellation
was issued, together with the new generator state. -/
def finallyCleanup (g : StreamGenerator) (session_id : String)
    (event_qid : Nat) (heartbeat_exists : Bool) (heartbeat_done : Bool) :
    Bool × StreamGenerator :=
  let cancelled := heartbeat_exists && !heartbeat_done
  let streams' := fun sid =>
    if sid = session_id then
      match g.active_streams session_id with
      | some q => if q.qid = event_qid then none else some q
      | none => none
    else g.active_streams sid
  let tasks' := fun sid => if sid = session_id then false else g.active_stream_tasks sid
  (cancelled, { g with active_streams := streams', active_stream_tasks := tasks' })

/-- Embedding of `SessionEventBuffers.clear_session` (called from `cleanup_queue`,
not from the `finally` block): pop and clear the session's buffer. -/
def clearSession (g : StreamGenerator) (session_id : String) : Nat × StreamGenerator :=
  match g.event_buffers session_id with
  | none => (0, g)
  | some b =>
      (b.buffer.length,
       { g with event_buffers := fun sid =>
          if sid = session_id then none else g.event_buffers sid })

/-- A minimal concrete event used to instantiate witnesses. -/
def sampleEvent (id : String) (t : StreamEventType) : StreamEvent :=
  { event_type := .known t, session_id := "s", timestamp := 0, event_id := id }

/-- A concrete replay buffer holding one event. -/
def sampleBuffer : EventBuffer :=
  EventBuffer.add { max_size := 100 } (sampleEvent "e1" .step_progress)

/-- A concrete generator state: session "s" has an installed queue with
identity 7, a live subscriber task, and a non-empty replay buffer. -/
def sampleGen : StreamGenerator :=
  { active_streams := fun sid =>
      if sid = "s" then some { qid := 7, maxsize := 1000, policy := .drop_oldest }
      else none,
    active_stream_tasks := fun sid => sid = "s",
    event_buffers := fun sid => if sid = "s" then some sampleBuffer else none,
    sessions := fun _ => none }

/-- The queue `publish_event` lazily constructs when none is installed
for the session. -/
def freshQueue (g : StreamGenerator) (fresh_qid : Nat) :
    BackpressureQueue StreamEvent :=
  { qid := fresh_qid, maxsize := (g.queue_size : Int),
    policy := g.backpressure_policy }

/-- Proof-side indexing helper: the elements of `l` paired with their
logical positions starting at `n` (the shape of the replay buffer's
position bookkeeping). -/
def pairsFrom (n : Nat) : List StreamEvent → List (Nat × StreamEvent)
  | [] => []
  | e :: es => (n, e) :: pairsFrom (n + 1) es

/-- C1: the claim says `size ≤ M` under every policy, and the code's own
comments promise that BLOCK "blocks until space is available"; but the
BLOCK branch of `put` falls through to an append on the unbounded
internal queue, so on a full queue with `maxsize = 1` a second `put`
completes at once and leaves `qsize = 2 > maxsize`. -/
theorem blockPolicyViolatesBound :
    (((({ maxsize := 1, policy := .block } : BackpressureQueue String).put
        "e1").2.put "e2").2.qsize = 2)
  ∧ ¬(((((({ maxsize := 1, policy := .block } : BackpressureQueue String).put
        "e1").2.put "e2").2.qsize : Int))
        ≤ ({ maxsize := 1, policy := .block } : BackpressureQueue String).maxsize) := by
  constructor
  · rfl
  · decide

/-- C7: on a full queue under DROP_NEWEST, `put` returns `False`,
increments `dropped_count` by one, and leaves the contents unchanged. -/
theorem dropNewestFullPut (q : BackpressureQueue α) (item : α)
    (hpol : q.policy = .drop_newest) (hpos : 0 < q.maxsize)
    (hfull : q.maxsize ≤ (q.items.length : Int)) :
    q.put item = (false, { q with dropped_count := q.dropped_count + 1 }) := by
  unfold BackpressureQueue.put
  rw [if_neg (by omega), if_neg (by omega), hpol]

/-- Witness for C7 at a concrete full queue. -/
theorem dropNewestFullPutWitness :
    BackpressureQueue.put
      { maxsize := 1, policy := .drop_newest, items := ["e1"], dropped_count := 0 } "e2"
    = (false,
       { maxsize := 1, policy := .drop_newest, items := ["e1"], dropped_count := 1 }) :=
  dropNewestFullPut _ "e2" rfl (by decide) (by decide)

/-- C9: filter composition laws — double negation, commutativity of the
"and" composite's decision, and exclude-type as negated include-type. -/
theorem filterCompositionLaws (f g : EventFilter) (e : StreamEvent)
    (T : List String) :
    ((EventFilter.notFilter (EventFilter.notFilter f)).shouldInclude e
        = f.shouldInclude e)
  ∧ ((EventFilter.compositeFilter [f, g] "and").shouldInclude e
        = (EventFilter.compositeFilter [g, f] "and").shouldInclude e)
  ∧ ((EventFilter.typeFilter T false).shouldInclude e
        = (EventFilter.notFilter (EventFilter.typeFilter T true)).shouldInclude e) := by
  refine ⟨?_, ?_, ?_⟩
  · simp [EventFilter.shouldInclude]
  · simp [EventFilter.shouldInclude, EventFilter.allInclude, Bool.and_comm]
  · simp [EventFilter.shouldInclude]

/-- C8: one heartbeat iteration never enqueues while the queue holds
more than 5 pending elements; when it does enqueue, the event has type
`heartbeat` and visibility `internal_only`. -/
theorem heartbeatSuppression (sid eid : String)
    (q : BackpressureQueue StreamEvent) (n : Nat) (now : Rat) :
    (5 < q.qsize → heartbeatTick sid eid q n now = (q, n))
  ∧ (q.qsize ≤ 5 →
      heartbeatTick sid eid q n now
        = ((q.put (heartbeatEvent sid eid (n + 1) now)).2, n + 1))
  ∧ (heartbeatEvent sid eid (n + 1) now).event_type = .known .heartbeat
  ∧ (heartbeatEvent sid eid (n + 1) now).visibility = .internal_only := by
  refine ⟨?_, ?_, rfl, rfl⟩
  · intro h
    unfold heartbeatTick
    rw [if_pos (by simpa using h)]
  · intro h
    unfold heartbeatTick
    rw [if_neg (by simpa using h)]

/-- Witness for C8: a queue with six pending events suppresses the
heartbeat, one with no pending events enqueues it. -/
theorem heartbeatSuppressionWitness :
    (heartbeatTick "s" "hb"
        { maxsize := 1000, policy := .drop_oldest,
          items := List.replicate 6 (sampleEvent "e1" .step_progress) } 0 0
      = ({ maxsize := 1000, policy := .drop_oldest,
           items := List.replicate 6 (sampleEvent "e1" .step_progress) }, 0))
  ∧ (heartbeatTick "s" "hb" { maxsize := 1000, policy := .drop_oldest } 0 0
      = ((BackpressureQueue.put { maxsize := 1000, policy := .drop_oldest }
            (heartbeatEvent "s" "hb" 1 0)).2, 1)) :=
  ⟨(heartbeatSuppression "s" "hb" _ 0 0).1 (by decide),
   (heartbeatSuppression "s" "hb" _ 0 0).2.1 (by decide)⟩

/-- Enumeration construction inverts `value` on `StreamEventType`. -/
theorem eventTypeOfValueInvertsValue (t : StreamEventType) :
    StreamEventType.ofValue? t.value = some t := by
  cases t <;> rfl

/-- Enumeration construction inverts `value` on `EventVisibility`. -/
theorem visibilityOfValueInvertsValue (v : EventVisibility) :
    EventVisibility.ofValue? v.value = some v := by
  cases v <;> rfl

/-- C5: `from_dict ∘ to_dict` is the identity on events whose type is an
enumeration member (for any freshly drawn fallback id), and it also
preserves events whose type is an unknown raw string verbatim. -/
theorem eventRoundTrip :
    (∀ (e : StreamEvent) (fresh : String) (t : StreamEventType),
        e.event_type = .known t →
        StreamEvent.from_dict e.to_dict fresh = e)
  ∧ (∀ (e : StreamEvent) (fresh : String) (s : String),
        e.event_type = .raw s → StreamEventType.ofValue? s = none →
        StreamEvent.from_dict e.to_dict fresh = e) := by
  constructor
  · intro e fresh t ht
    cases e
    simp only [StreamEvent.to_dict, StreamEvent.from_dict] at *
    subst ht
    simp [EventTypeField.value, eventTypeOfValueInvertsValue,
      visibilityOfValueInvertsValue]
  · intro e fresh s hs hnone
    cases e
    simp only [StreamEvent.to_dict, StreamEvent.from_dict] at *
    subst hs
    simp [EventTypeField.value, hnone, visibilityOfValueInvertsValue]

/-- Witness for C5: a fully populated concrete event with a known type
round-trips. -/
theorem eventRoundTripWitness :
    StreamEvent.from_dict
      (StreamEvent.to_dict
        { event_type := .known .step_progress, session_id := "s",
          timestamp := 5, event_id := "e1", step_number := some 2,
          message := "working", data := some [("x", Json.num 1)],
          progress_percent := some 50, tool_used := some "search",
          duration_ms := some 12, success := false,
          metadata := some [("m", Json.str "v")],
          visibility := .live_ui_only }) "fresh-id"
    = { event_type := .known .step_progress, session_id := "s",
        timestamp := 5, event_id := "e1", step_number := some 2,
        message := "working", data := some [("x", Json.num 1)],
        progress_percent := some 50, tool_used := some "search",
        duration_ms := some 12, success := false,
        metadata := some [("m", Json.str "v")],
        visibility := .live_ui_only } :=
  eventRoundTrip.1 _ "fresh-id" .step_progress rfl

/-- C6 counterexample: with `enabled=false` and a non-empty pending
batch, `add` returns only the single-event wire form and leaves the
pending batch in place — not the flush-then-event concatenation the
claim demands. -/
theorem batcherDisabledSkipsFlush :
    (EventBatcher.add
        { session_id := "s", config := { enabled := false },
          batch := [sampleEvent "p1" .step_progress] }
        (sampleEvent "x1" .step_progress) 0
      = (some (sampleEvent "x1" .step_progress).to_sse_format,
         { session_id := "s", config := { enabled := false },
           batch := [sampleEvent "p1" .step_progress] }))
  ∧ (sampleEvent "x1" .step_progress).to_sse_format
      ≠ EventBatcher.formatBatch [sampleEvent "p1" .step_progress]
          ++ (sampleEvent "x1" .step_progress).to_sse_format := by
  constructor
  · rfl
  · decide

/-- C6 amended: an immediate-type event with batching enabled flushes
the pending batch and returns the concatenation, while `enabled=false`
returns the single-event wire form alone, leaving any pending batch
untouched. -/
theorem batcherAddAmended (b : EventBatcher) (e : StreamEvent) (now : Rat)
    (hopen : b.closed = false) :
    (b.config.enabled = true →
      e.event_type.value ∈ b.config.immediate_types →
      b.add e now
        = (some (b.flushAndFormat.1 ++ e.to_sse_format), b.flushAndFormat.2))
  ∧ (b.config.enabled = false →
      b.add e now = (some e.to_sse_format, b)) := by
  constructor
  · intro hen him
    rcases hfb : b.flushAndFormat with ⟨s, b2⟩
    simp [EventBatcher.add, hopen, hen, him, hfb]
  · intro hdis
    simp [EventBatcher.add, hopen, hdis]

/-- Witness for C6 amended: a `workflow_completed` event flushes a
pending one-event batch and is appended after it. -/
theorem batcherAddAmendedWitness :
    EventBatcher.add
      { session_id := "s", config := { enabled := true },
        batch := [sampleEvent "p1" .step_progress] }
      (sampleEvent "c1" .workflow_completed) 0
    = (some (EventBatcher.formatBatch [sampleEvent "p1" .step_progress]
          ++ (sampleEvent "c1" .workflow_completed).to_sse_format),
       { session_id := "s", config := { enabled := true }, batch := [],
         batch_start_time := none }) :=
  (batcherAddAmended _ _ 0 rfl).1 rfl (by decide)

/-- C2 counterexample: under a filter that excludes
`workflow_completed`, the dequeued terminal event is skipped (the filter
check precedes the termination check), the loop does not exit, and a
later event becomes the last payload — so the terminal event is neither
emitted nor last. -/
theorem filteredCompletedNotTerminal :
    (streamDrain (some (EventFilter.typeFilter ["workflow_completed"] false))
        [sampleEvent "c1" .workflow_completed, sampleEvent "p1" .step_progress]
      = ([(sampleEvent "p1" .step_progress).to_sse_format], false))
  ∧ (sampleEvent "p1" .step_progress).to_sse_format
      ≠ (sampleEvent "c1" .workflow_completed).to_sse_format := by
  constructor
  · rfl
  · decide

/-- C2 amended: whenever the first dequeued `workflow_completed` event
that the filter accepts is reached, the stream emits its wire form and
terminates immediately, so that wire form is the last payload delivered;
events the filter rejects (including rejected `workflow_completed`
events) are skipped. -/
theorem completedTerminalAmended (filt : Option EventFilter)
    (pre rest : List StreamEvent) (ce : StreamEvent)
    (hacc : acceptsEvent filt ce = true)
    (hty : ce.event_type = .known .workflow_completed)
    (hpre : ∀ x ∈ pre,
      ¬(acceptsEvent filt x = true
        ∧ x.event_type = .known .workflow_completed)) :
    streamDrain filt (pre ++ ce :: rest)
      = ((pre.filter (acceptsEvent filt)).map StreamEvent.to_sse_format
          ++ [ce.to_sse_format], true) := by
  induction pre with
  | nil =>
      simp [streamDrain, hacc, hty]
  | cons x xs ih =>
      have hx := hpre x (List.mem_cons_self x xs)
      have ihs := ih (fun y hy => hpre y (List.mem_cons_of_mem x hy))
      by_cases hxa : acceptsEvent filt x = true
      · have hxty : ¬x.event_type = .known .workflow_completed := by
          intro h; exact hx ⟨hxa, h⟩
        simp [streamDrain, hxa, hxty, ihs, List.filter_cons]
      · have hxa' : acceptsEvent filt x = false := by
          revert hxa; cases acceptsEvent filt x <;> simp
        simp [streamDrain, hxa', ihs, List.filter_cons]

/-- Witness for C2 amended: with no filter, a dequeued
`workflow_completed` after one progress event is emitted and terminates
the stream as the last payload. -/
theorem completedTerminalAmendedWitness :
    streamDrain none
      [sampleEvent "p1" .step_progress, sampleEvent "c1" .workflow_completed,
       sampleEvent "p2" .step_progress]
    = ([(sampleEvent "p1" .step_progress).to_sse_format,
        (sampleEvent "c1" .workflow_completed).to_sse_format], true) :=
  completedTerminalAmended none [sampleEvent "p1" .step_progress]
    [sampleEvent "p2" .step_progress] (sampleEvent "c1" .workflow_completed)
    rfl rfl
    (by intro x hx; rw [List.mem_singleton] at hx; subst hx; decide)

/-- C3 counterexample: the `finally` block of `generate_stream` leaves
the session's replay buffer exactly as it was — here still holding one
event — instead of clearing it as the claim states. -/
theorem finallyKeepsReplayBuffer :
    ((finallyCleanup sampleGen "s" 7 true false).2.event_buffers "s"
      = some sampleBuffer)
  ∧ sampleBuffer.buffer.length = 1 := by
  exact ⟨rfl, rfl⟩

/-- C3 amended: on scope exit the heartbeat task is cancelled when it
exists and is not done, the queue entry is removed only when it is still
this subscriber's queue, the subscriber-task entry is removed, and the
replay buffers are left untouched (they are cleared only by
`cleanup_queue`). -/
theorem finallyCleanupAmended (g : StreamGenerator) (sid : String) (qid : Nat)
    (hb_exists hb_done : Bool) :
    ((finallyCleanup g sid qid hb_exists hb_done).1
        = (hb_exists && !hb_done))
  ∧ ((finallyCleanup g sid qid hb_exists hb_done).2.active_streams sid
      = (match g.active_streams sid with
         | some q => if q.qid = qid then none else some q
         | none => none))
  ∧ (∀ s, s ≠ sid →
      (finallyCleanup g sid qid hb_exists hb_done).2.active_streams s
        = g.active_streams s)
  ∧ ((finallyCleanup g sid qid hb_exists hb_done).2.active_stream_tasks sid
        = false)
  ∧ ((finallyCleanup g sid qid hb_exists hb_done).2.event_buffers
        = g.event_buffers) := by
  refine ⟨rfl, by simp [finallyCleanup], ?_, by simp [finallyCleanup], rfl⟩
  intro s hs
  simp [finallyCleanup, hs]

/-- Witness for C3 amended at a concrete state: another session's queue
entry is unaffected by the cleanup of session "s". -/
theorem finallyCleanupAmendedWitness :
    (finallyCleanup sampleGen "s" 7 true false).2.active_streams "t"
      = sampleGen.active_streams "t" :=
  (finallyCleanupAmended sampleGen "s" 7 true false).2.2.1 "t" (by decide)

/-- Embedding of `put` on a queue with no pending items always accepts. -/
theorem put_empty_accepts (q : BackpressureQueue α) (x : α)
    (h : q.items = []) : (q.put x).1 = true := by
  unfold BackpressureQueue.put
  rw [h]
  split
  · rfl
  · split
    · rfl
    · rename_i h1 h2
      exfalso
      simp only [List.length_nil, Nat.cast_zero] at h2
      omega

/-- C10: publishing to a session that was never registered still
succeeds: the event lands in a freshly created replay buffer, a fresh
queue is created and the event enqueued, the result is the queue's
acceptance (`true` on the fresh queue), and the failing
`update_session` (unknown session) leaves the session store unchanged
without affecting the returned value. -/
theorem publishUnknownSession (g : StreamGenerator) (sid : String)
    (e : StreamEvent) (now : Rat) (fresh_qid : Nat)
    (hsess : g.sessions sid = none)
    (hq : g.active_streams sid = none)
    (hbuf : g.event_buffers sid = none) :
    ((g.publish_event sid e now fresh_qid).1 = true)
  ∧ ((g.publish_event sid e now fresh_qid).2.sessions = g.sessions)
  ∧ ((g.publish_event sid e now fresh_qid).2.event_buffers sid
      = some (EventBuffer.add { max_size := g.event_buffer_size } e))
  ∧ ((g.publish_event sid e now fresh_qid).2.active_streams sid
      = some (((freshQueue g fresh_qid).put e).2)) := by
  have hacc : ((freshQueue g fresh_qid).put e).1 = true :=
    put_empty_accepts _ e rfl
  simp only [freshQueue] at hacc
  refine ⟨?_, ?_, ?_, ?_⟩ <;>
    simp [StreamGenerator.publish_event, StreamGenerator.getOrCreateBuffer,
      freshQueue, hq, hbuf, hsess, update_session, hacc]

/-- Witness for C10 at a fresh generator state and concrete event. -/
theorem publishUnknownSessionWitness :
    ((StreamGenerator.publish_event
        { active_streams := fun _ => none, active_stream_tasks := fun _ => false,
          event_buffers := fun _ => none, sessions := fun _ => none }
        "s" (sampleEvent "e1" .step_progress) 0 1).1 = true)
  ∧ ((StreamGenerator.publish_event
        { active_streams := fun _ => none, active_stream_tasks := fun _ => false,
          event_buffers := fun _ => none, sessions := fun _ => none }
        "s" (sampleEvent "e1" .step_progress) 0 1).2.event_buffers "s"
      = some (EventBuffer.add { max_size := 100 }
          (sampleEvent "e1" .step_progress))) :=
  ⟨(publishUnknownSession _ "s" _ 0 1 rfl rfl rfl).1,
   (publishUnknownSession _ "s" _ 0 1 rfl rfl rfl).2.2.1⟩

theorem pairsFrom_append (n : Nat) (as bs : List StreamEvent) :
    pairsFrom n (as ++ bs) = pairsFrom n as ++ pairsFrom (n + as.length) bs := by
  induction as generalizing n with
  | nil => simp [pairsFrom]
  | cons x xs ih =>
      simp [pairsFrom, ih (n + 1), Nat.add_assoc, Nat.add_comm 1 xs.length]

theorem map_snd_pairsFrom (n : Nat) (l : List StreamEvent) :
    (pairsFrom n l).map Prod.snd = l := by
  induction l generalizing n with
  | nil => rfl
  | cons x xs ih => simp [pairsFrom, ih]

theorem pairsFrom_length (n : Nat) (l : List StreamEvent) :
    (pairsFrom n l).length = l.length := by
  induction l generalizing n with
  | nil => rfl
  | cons x xs ih => simp [pairsFrom, ih]

theorem pairsFrom_drop (n m : Nat) (l : List StreamEvent) :
    (pairsFrom n l).drop m = pairsFrom (n + m) (l.drop m) := by
  induction l generalizing n m with
  | nil => simp [pairsFrom]
  | cons x xs ih =>
      cases m with
      | zero => simp [pairsFrom]
      | succ m' =>
          simp only [pairsFrom, List.drop_succ_cons, ih (n + 1) m']
          congr 1
          omega

theorem pairsFrom_mem_of_get (n : Nat) (l : List StreamEvent) (i : Nat)
    (h : i < l.length) :
    (n + i, l.get ⟨i, h⟩) ∈ pairsFrom n l := by
  induction l generalizing n i with
  | nil => simp at h
  | cons x xs ih =>
      cases i with
      | zero => simp [pairsFrom]
      | succ i' =>
          have := ih (n + 1) i' (by simpa using h)
          simp only [pairsFrom, List.mem_cons]
          right
          have harith : n + (i' + 1) = (n + 1) + i' := by omega
          rw [harith]
          simpa using this

theorem posSet_fresh (l : List (String × Nat)) (id : String) (v : Nat)
    (h : id ∉ l.map Prod.fst) :
    posSet l id v = l ++ [(id, v)] := by
  induction l with
  | nil => rfl
  | cons kv rest ih =>
      simp only [List.map_cons, List.mem_cons] at h
      push_neg at h
      simp [posSet, Ne.symm h.1, ih h.2]

theorem posLookup_eq_none (l : List (String × Nat)) (id : String)
    (h : id ∉ l.map Prod.fst) :
    posLookup l id = none := by
  induction l with
  | nil => rfl
  | cons kv rest ih =>
      simp only [List.map_cons, List.mem_cons] at h
      push_neg at h
      simp [posLookup, Ne.symm h.1, ih h.2]

theorem posLookup_of_mem (l : List (String × Nat)) (k : String) (v : Nat)
    (hnd : (l.map Prod.fst).Nodup) (hmem : (k, v) ∈ l) :
    posLookup l k = some v := by
  induction l with
  | nil => simp at hmem
  | cons kv rest ih =>
      simp only [List.map_cons, List.nodup_cons] at hnd
      rcases List.mem_cons.mp hmem with heq | hrest
      · subst heq
        simp [posLookup]
      · have hne : kv.1 ≠ k := by
          intro h
          exact hnd.1 (h ▸ List.mem_map_of_mem Prod.fst hrest)
        simp [posLookup, hne, ih hnd.2 hrest]

theorem keys_pairsFrom (n : Nat) (l : List StreamEvent) :
    (((pairsFrom n l).map (fun p => (p.2.event_id, p.1))).map Prod.fst)
      = l.map StreamEvent.event_id := by
  induction l generalizing n with
  | nil => rfl
  | cons x xs ih => simp [pairsFrom, ih]

theorem add_no_evict (cap : Nat) (B : List StreamEvent)
    (I : List (String × Nat)) (c : Nat) (a : StreamEvent)
    (hlt : B.length < cap) :
    EventBuffer.add
      { max_size := cap, buffer := B, event_index := I, position_counter := c } a
    = { max_size := cap, buffer := B ++ [a],
        event_index := posSet I a.event_id c, position_counter := c + 1 } := by
  have h1 : ¬(B.length ≥ cap ∧ ¬(B.isEmpty = true)) := by
    rintro ⟨h, -⟩; omega
  have h2 : ¬((B ++ [a]).length > cap) := by
    rw [List.length_append]
    simp only [List.length_cons, List.length_nil]
    omega
  simp only [EventBuffer.add, if_neg h1, if_neg h2]

theorem add_evict (cap : Nat) (oldest : StreamEvent) (restl : List StreamEvent)
    (I : List (String × Nat)) (c : Nat) (a : StreamEvent)
    (hlen : (oldest :: restl).length = cap) :
    EventBuffer.add
      { max_size := cap, buffer := oldest :: restl, event_index := I,
        position_counter := c } a
    = { max_size := cap, buffer := restl ++ [a],
        event_index := posSet (posErase I oldest.event_id) a.event_id c,
        position_counter := c + 1 } := by
  have h1 : (oldest :: restl).length ≥ cap ∧ ¬((oldest :: restl).isEmpty = true) := by
    refine ⟨by omega, by simp⟩
  have h2 : ((oldest :: restl) ++ [a]).length > cap := by
    have hlen2 : restl.length + 1 = cap := by simpa using hlen
    simp only [List.length_append, List.length_cons, List.length_nil]
    omega
  simp only [EventBuffer.add, if_pos h1, if_pos h2]
  rfl

theorem buildBuffer_spec (cap : Nat) (hcap : 1 ≤ cap) (es : List StreamEvent)
    (hnd : (es.map StreamEvent.event_id).Nodup) :
    (buildBuffer cap es).buffer = es.drop (es.length - cap)
  ∧ (buildBuffer cap es).event_index
      = ((pairsFrom 0 es).drop (es.length - cap)).map
          (fun p => (p.2.event_id, p.1))
  ∧ (buildBuffer cap es).position_counter = es.length
  ∧ (buildBuffer cap es).max_size = cap := by
  induction es using List.reverseRecOn with
  | nil =>
      refine ⟨by simp [buildBuffer], by simp [buildBuffer, pairsFrom], rfl, rfl⟩
  | append_singleton as a ih =>
      rw [List.map_append] at hnd
      rcases List.nodup_append.mp hnd with ⟨hnd1, -, hdisj⟩
      have hfresh : a.event_id ∉ as.map StreamEvent.event_id := by
        intro hmem
        exact hdisj hmem (by simp)
      obtain ⟨hbuf, hidx, hcnt, hms⟩ := ih hnd1
      have hstep : buildBuffer cap (as ++ [a])
          = EventBuffer.add (buildBuffer cap as) a := by
        simp [buildBuffer, List.foldl_append]
      have hrec : buildBuffer cap as
          = { max_size := (buildBuffer cap as).max_size,
              buffer := (buildBuffer cap as).buffer,
              event_index := (buildBuffer cap as).event_index,
              position_counter := (buildBuffer cap as).position_counter } := rfl
      rw [hms, hbuf, hidx, hcnt] at hrec
      by_cases hlt : as.length < cap
      · have hd0 : as.length - cap = 0 := by omega
        rw [hd0] at hrec
        simp only [List.drop_zero] at hrec
        have hkeys : a.event_id ∉ (((pairsFrom 0 as).map
            (fun p => (p.2.event_id, p.1))).map Prod.fst) := by
          rw [keys_pairsFrom]; exact hfresh
        have hd0' : (as ++ [a]).length - cap = 0 := by
          rw [List.length_append]
          simp only [List.length_cons, List.length_nil]
          omega
        rw [hstep, hrec, add_no_evict _ _ _ _ _ hlt,
          posSet_fresh _ _ _ hkeys, hd0']
        refine ⟨by simp, ?_, by simp, rfl⟩
        rw [pairsFrom_append]
        simp [pairsFrom]
      · push_neg at hlt
        have hlendrop : (as.drop (as.length - cap)).length = cap := by
          rw [List.length_drop]; omega
        obtain ⟨oldest, restl, hB⟩ :
            ∃ o r, as.drop (as.length - cap) = o :: r := by
          cases hBB : as.drop (as.length - cap) with
          | nil => rw [hBB] at hlendrop; simp at hlendrop; omega
          | cons o r => exact ⟨o, r, rfl⟩
        have hrestl : restl = as.drop (as.length - cap + 1) := by
          have ht := List.tail_drop as (as.length - cap)
          rw [hB] at ht
          simpa using ht
        have hidx2 : ((pairsFrom 0 as).drop (as.length - cap)).map
            (fun p => (p.2.event_id, p.1))
            = (oldest.event_id, as.length - cap)
              :: (pairsFrom (as.length - cap + 1) restl).map
                  (fun p => (p.2.event_id, p.1)) := by
          rw [pairsFrom_drop, Nat.zero_add, hB]
          simp [pairsFrom]
        rw [hB, hidx2] at hrec
        have hkeys : a.event_id ∉ (((pairsFrom (as.length - cap + 1) restl).map
            (fun p => (p.2.event_id, p.1))).map Prod.fst) := by
          rw [keys_pairsFrom, hrestl, List.map_drop]
          intro hmem
          exact hfresh (List.mem_of_mem_drop hmem)
        have hlen : (oldest :: restl).length = cap := by
          rw [← hB]; exact hlendrop
        have herase : posErase ((oldest.event_id, as.length - cap)
              :: (pairsFrom (as.length - cap + 1) restl).map
                  (fun p => (p.2.event_id, p.1))) oldest.event_id
            = (pairsFrom (as.length - cap + 1) restl).map
                (fun p => (p.2.event_id, p.1)) := by
          simp [posErase]
        have hd1 : (as ++ [a]).length - cap = (as.length - cap) + 1 := by
          rw [List.length_append]
          simp only [List.length_cons, List.length_nil]
          omega
        rw [hstep, hrec, add_evict _ _ _ _ _ _ hlen, herase,
          posSet_fresh _ _ _ hkeys, hd1]
        refine ⟨?_, ?_, by simp, rfl⟩
        · rw [List.drop_append_of_le_length (by omega), ← hrestl]
        · rw [pairsFrom_append,
            List.drop_append_of_le_length (by rw [pairsFrom_length]; omega),
            pairsFrom_drop, Nat.zero_add, ← hrestl]
          simp [pairsFrom]

theorem filter_pos_drop (I : List (String × Nat)) (k : Nat) :
    ∀ (l : List StreamEvent) (base : Nat),
    (∀ j (h : j < l.length),
      posLookup I ((l.get ⟨j, h⟩).event_id) = some (base + j)) →
    l.filter (fun e =>
        match posLookup I e.event_id with
        | some p => decide (p > k)
        | none => false)
      = l.drop (k + 1 - base) := by
  intro l
  induction l with
  | nil => intro base _; simp
  | cons x xs ih =>
      intro base hlk
      have h0 : posLookup I x.event_id = some (base + 0) := hlk 0 (by simp)
      have hxs : ∀ j (h : j < xs.length),
          posLookup I ((xs.get ⟨j, h⟩).event_id) = some ((base + 1) + j) := by
        intro j hj
        have h1 := hlk (j + 1) (by simpa using Nat.succ_lt_succ hj)
        have harith : base + (j + 1) = (base + 1) + j := by omega
        rw [harith] at h1
        exact h1
      rw [List.filter_cons]
      by_cases hbk : k < base
      · have hx : (match posLookup I x.event_id with
            | some p => decide (p > k)
            | none => false) = true := by
          rw [h0]
          simp only [decide_eq_true_eq]
          omega
        rw [if_pos hx, ih (base + 1) hxs]
        have h1 : k + 1 - (base + 1) = 0 := by omega
        have h2 : k + 1 - base = 0 := by omega
        rw [h1, h2]
        simp
      · have hx : (match posLookup I x.event_id with
            | some p => decide (p > k)
            | none => false) = false := by
          rw [h0]
          simp only [decide_eq_false_iff_not]
          omega
        rw [if_neg (by simp [hx]), ih (base + 1) hxs]
        have h1 : k + 1 - (base + 1) = k - base := by omega
        have h2 : k + 1 - base = (k - base) + 1 := by omega
        rw [h1, h2, List.drop_succ_cons]

/-- C4: in a buffer built from distinct-id events `e_1 .. e_N`, replay
after an event still buffered returns exactly the later events in
insertion order, and replay after any id not in the buffer (evicted or
never seen) returns the empty list. -/
theorem replayAfterCorrect (cap : Nat) (es : List StreamEvent) (k : Nat)
    (hcap : 1 ≤ cap) (hnd : (es.map StreamEvent.event_id).Nodup)
    (hk : k < es.length)
    (hmem : es.get ⟨k, hk⟩ ∈ (buildBuffer cap es).buffer) :
    ((buildBuffer cap es).get_events_after (es.get ⟨k, hk⟩).event_id
        = es.drop (k + 1))
  ∧ (∀ id, id ∉ (buildBuffer cap es).buffer.map StreamEvent.event_id →
      (buildBuffer cap es).get_events_after id = []) := by
  obtain ⟨hbuf, hidx, hcnt, hms⟩ := buildBuffer_spec cap hcap es hnd
  set d := es.length - cap with hd
  have hkeys : ((buildBuffer cap es).event_index.map Prod.fst)
      = (buildBuffer cap es).buffer.map StreamEvent.event_id := by
    rw [hidx, hbuf, pairsFrom_drop, Nat.zero_add, keys_pairsFrom]
  have hkeysnd : ((buildBuffer cap es).event_index.map Prod.fst).Nodup := by
    rw [hkeys, hbuf, List.map_drop]
    exact List.Nodup.sublist (List.drop_sublist d _) hnd
  have hlook : ∀ j (hj : j < es.length), d ≤ j →
      posLookup (buildBuffer cap es).event_index ((es.get ⟨j, hj⟩).event_id)
        = some j := by
    intro j hj hdj
    refine posLookup_of_mem _ _ _ hkeysnd ?_
    rw [hidx, pairsFrom_drop, Nat.zero_add]
    have hj2 : j - d < (es.drop d).length := by
      rw [List.length_drop]; omega
    have harith : d + (j - d) = j := by omega
    have hget : (es.drop d).get ⟨j - d, hj2⟩ = es.get ⟨j, hj⟩ := by
      have hx := List.get_drop es (i := d) (j := j - d) (by omega)
      rw [← hx]
      congr 1
      exact Fin.ext (by simpa using harith)
    have hpair : (j, es.get ⟨j, hj⟩) ∈ pairsFrom d (es.drop d) := by
      have hmm := pairsFrom_mem_of_get d (es.drop d) (j - d) hj2
      rw [harith, hget] at hmm
      exact hmm
    exact List.mem_map_of_mem _ hpair
  have hdk : d ≤ k := by
    by_contra hko
    push_neg at hko
    rw [hbuf] at hmem
    obtain ⟨⟨i, hi⟩, hgi⟩ := List.mem_iff_get.mp hmem
    have hi2 : d + i < es.length := by
      rw [List.length_drop] at hi; omega
    have hgeq : es.get ⟨d + i, hi2⟩ = es.get ⟨k, hk⟩ := by
      rw [List.get_drop es hi2]
      exact hgi
    have hideq : (es.map StreamEvent.event_id).get ⟨d + i, by simpa using hi2⟩
        = (es.map StreamEvent.event_id).get ⟨k, by simpa using hk⟩ := by
      simp only [List.get_map]
      rw [hgeq]
    have hfin := (List.Nodup.get_inj_iff hnd).mp hideq
    have : d + i = k := by
      simpa using congrArg Fin.val hfin
    omega
  constructor
  · unfold EventBuffer.get_events_after
    rw [hlook k hk hdk]
    have hfl : ∀ j (h : j < (es.drop d).length),
        posLookup (buildBuffer cap es).event_index
          (((es.drop d).get ⟨j, h⟩).event_id) = some (d + j) := by
      intro j hj
      have hj2 : d + j < es.length := by
        rw [List.length_drop] at hj; omega
      have hget : (es.drop d).get ⟨j, hj⟩ = es.get ⟨d + j, hj2⟩ :=
        (List.get_drop es hj2).symm
      rw [hget]
      exact hlook (d + j) hj2 (by omega)
    rw [hbuf]
    show (es.drop d).filter (fun e =>
        match posLookup (buildBuffer cap es).event_index e.event_id with
        | some p => decide (p > k)
        | none => false) = es.drop (k + 1)
    rw [filter_pos_drop _ k (es.drop d) d hfl, List.drop_drop]
    congr 1
    omega
  · intro id hid
    unfold EventBuffer.get_events_after
    have hnone : posLookup (buildBuffer cap es).event_index id = none := by
      apply posLookup_eq_none
      rw [hkeys]
      exact hid
    rw [hnone]

/-- Witness for C4: with capacity 2 and three distinct-id events, the
second event is still buffered and replay after it returns exactly the
third event. -/
theorem replayAfterCorrectWitness :
    (buildBuffer 2 [sampleEvent "e1" .step_progress,
        sampleEvent "e2" .step_progress,
        sampleEvent "e3" .step_progress]).get_events_after
      (([sampleEvent "e1" .step_progress, sampleEvent "e2" .step_progress,
         sampleEvent "e3" .step_progress].get ⟨1, by decide⟩).event_id)
    = [sampleEvent "e3" .step_progress] :=
  (replayAfterCorrect 2 _ 1 (by decide) (by decide) (by decide)
    (List.mem_cons_self _ _)).1
